import Mathlib

/-!
Verification development for the CQSclock repository.

The definitions below are a shallow embedding of the JavaScript sources:

* `src/middleware/onedrive.js` — the OneDrive integration (`OneDriveService`):
  token caching, base-folder/shortcut resolution, per-segment path creation,
  upload-name synthesis and upload addressing, local staging cleanup.
* `src/database.js` — the SQLite clock-in/clock-out bookkeeping.
* `server.js` (src/unnamed/part_000) — the submit and clock-in flows as far
  as they touch the locally staged file.

JavaScript string-truthiness is modelled by using plain `String` fields in
which the empty string stands for null, undefined and the empty literal (all falsy), and
`Int` fields in which `0` stands for `null` (falsy).  Network responses are
passed in as explicit arguments; the remote folder store is modelled as an
explicit state value.  URL percent-encoding is elided: request addressing is
modelled structurally rather than as raw URL strings.
-/

namespace CQS

/-! ## JavaScript string primitives used by onedrive.js -/

/-- The character class `[\\/:*?"<>|]` removed by the sanitizers
(onedrive.js lines 86 and 163). -/
def isIllegalChar (c : Char) : Bool :=
  c = '\\' ∨ c = '/' ∨ c = ':' ∨ c = '*' ∨ c = '?' ∨ c = '"' ∨ c = '<' ∨ c = '>' ∨ c = '|'

/-- JavaScript regex `\s` on the characters that occur in practice
(space, tab, newline, carriage return, vertical tab, form feed). -/
def jsWs (c : Char) : Bool :=
  c = ' ' ∨ c = '\t' ∨ c = '\n' ∨ c = '\r' ∨ c = '\x0b' ∨ c = '\x0c'

/-- `String.prototype.trim`: drop whitespace from both ends. -/
def jsTrim (cs : List Char) : List Char :=
  ((cs.dropWhile jsWs).reverse.dropWhile jsWs).reverse

/-- remove every illegal path character. -/
def removeIllegal (cs : List Char) : List Char :=
  cs.filter (fun c => ¬ isIllegalChar c)

/-- Collapse every run of whitespace to one space character. -/
def collapseWs : List Char → List Char
  | [] => []
  | c :: rest =>
    let r := collapseWs rest
    if jsWs c then
      match r with
      | d :: _ => if d = ' ' then r else ' ' :: r
      | [] => [' ']
    else c :: r

/-- `String.prototype.split(sep)` for a single-character separator,
returning the pieces between occurrences (JS semantics: `"".split` gives
one empty piece, a leading separator gives a leading empty piece). -/
def splitChar (sep : Char) : List Char → List (List Char)
  | [] => [[]]
  | c :: rest =>
    let r := splitChar sep rest
    if c = sep then [] :: r
    else
      match r with
      | h :: t => (c :: h) :: t
      | [] => [[c]]

/-- Split a string on the slash character, as a list of strings. -/
def splitSlash (s : String) : List String :=
  (splitChar '/' s.data).map (fun l => ⟨l⟩)

/-- Join with slash separators, on character lists. -/
def joinSlashChars : List (List Char) → List Char
  | [] => []
  | [h] => h
  | h :: h2 :: t => h ++ '/' :: joinSlashChars (h2 :: t)

/-- Join with slash separators, on strings. -/
def joinSlash (l : List String) : String :=
  ⟨joinSlashChars (l.map String.data)⟩

/-- `node:path.extname` for names without directory separators: the piece
from the last dot, unless the only dot is the leading character. -/
def extname (s : String) : String :=
  match splitChar '.' s.data with
  | [] => ""
  | [_] => ""
  | p :: rest => if p = [] ∧ rest.length = 1 then "" else ⟨'.' :: rest.getLastD []⟩

/-- `sanitizeSegment` (onedrive.js lines 84-89): strip illegal characters,
collapse whitespace, trim. -/
def sanitizeSegment (s : String) : String :=
  ⟨jsTrim (collapseWs (removeIllegal s.data))⟩

/-- The file-name sanitization of `uploadFile` (onedrive.js line 163):
`String(fileName || "upload.bin").replace(illegal chars, empty).trim()`.
A falsy (empty) `fileName` falls back to `upload.bin`; there is no
whitespace collapsing here, unlike `sanitizeSegment`. -/
def sanitizeFileName (fileName : String) : String :=
  ⟨jsTrim (removeIllegal (if fileName = "" then "upload.bin" else fileName).data)⟩

/-- Replace every colon and period by a dash in the ISO timestamp
(onedrive.js line 167). -/
def replaceTsChars (ts : String) : String :=
  ⟨ts.data.map (fun c => if c = ':' ∨ c = '.' then '-' else c)⟩

/-- `ext ? rawName.slice(0, -ext.length) : rawName` (onedrive.js line
165): the base name without its extension. -/
def baseOf (raw : String) : String :=
  let ext := extname raw
  if ext = "" then raw else ⟨raw.data.take (raw.data.length - ext.data.length)⟩

/-- The synthesized upload name (onedrive.js lines 163-169):
`{base-name}_{timestamp-with-dashes}_{random-suffix}{extension}` where the
timestamp `ts` (from `new Date().toISOString()`) and the random suffix
`rand` (from `Math.random().toString(36).slice(2, 8)`, up to six base-36
characters) are inputs of the model. -/
def mkFinalName (fileName ts rand : String) : String :=
  let raw := sanitizeFileName fileName
  baseOf raw ++ "_" ++ replaceTsChars ts ++ "_" ++ rand ++ extname raw

theorem mkFinalName_eq (fileName ts rand : String) :
    mkFinalName fileName ts rand
      = baseOf (sanitizeFileName fileName) ++ "_" ++ replaceTsChars ts ++ "_" ++ rand
        ++ extname (sanitizeFileName fileName) := rfl

theorem string_data_append (a b : String) : (a ++ b).data = a.data ++ b.data := rfl

theorem string_eq_of_data {a b : String} (h : a.data = b.data) : a = b := by
  cases a
  cases b
  exact congrArg String.mk h

theorem string_data_empty : ("" : String).data = [] := rfl

/-- The regex strip `finalFolder.replace(new RegExp(caret + folderPath + optional slash, i), empty)`
(onedrive.js lines 107 and 193), for the literal-prefix case: if the string
starts with the base folder path, drop it together with one following slash.
(The case-insensitive aspect of the regex is elided; every caller in the
source passes a folder string built by prepending the literal `folderPath`.) -/
def stripBase (fp s : String) : String :=
  if s.data.take fp.data.length = fp.data then
    match s.data.drop fp.data.length with
    | '/' :: r => ⟨r⟩
    | r => ⟨r⟩
  else s

example : sanitizeSegment "  a*b  c/ " = "ab c" := by decide
example : extname "photo.jpg" = ".jpg" := by decide
example : extname ".bashrc" = "" := by decide
example : extname "archive.tar.gz" = ".gz" := by decide
example : extname "noext" = "" := by decide
example : mkFinalName "photo.jpg" "2024-05-01T10:00:00.000Z" "abc123"
    = "photo_2024-05-01T10-00-00-000Z_abc123.jpg" := by decide
example : stripBase "TimeClock_Photos" "TimeClock_Photos/Companies/Acme" = "Companies/Acme" := by
  decide
example : stripBase "TimeClock_Photos" "TimeClock_Photos" = "" := by decide

/-! ## The OneDriveService state (onedrive.js constructor, lines 7-28) -/

/-- Mutable fields of `OneDriveService` relevant to resolution, token
caching and upload addressing.  `""` models a JS falsy string field
(null, undefined or empty); `tokenExpiry = 0` models null. -/
structure OneDriveService where
  folderPath : String
  targetUpn : String
  driveId : String
  rootItemId : String
  accessToken : String
  tokenExpiry : Int
deriving DecidableEq, Repr

/-- REST addressing root (onedrive.js lines 31-35): a pinned drive when
`driveId` is truthy, else the default drive of the target user. -/
inductive DriveRoot
  | drive (id : String)
  | userDrive (upn : String)
deriving DecidableEq, Repr

/-- `baseDriveRoot` (onedrive.js lines 31-35). -/
def baseDriveRoot (st : OneDriveService) : DriveRoot :=
  if st.driveId ≠ "" then .drive st.driveId else .userDrive st.targetUpn

/-- The item response returned by `GET {root}/root:/{folderPath}`
(onedrive.js line 64).  Optional chains `data.parentReference?.driveId`,
`data.remoteItem?.id` and `data.remoteItem?.parentReference?.driveId` are
flattened to strings with `""` for an absent link, which is
truthiness-equivalent to the JS optional chaining. -/
structure ItemData where
  id : String
  parentDriveId : String
  remoteItemId : String
  remoteItemParentDriveId : String
deriving DecidableEq, Repr

/-- `resolveBaseFolderIfNeeded` (onedrive.js lines 57-81), given the item
response `data` for the configured base folder.  Memoized on a truthy
`rootItemId`; a shortcut (truthy `remoteItem.id` and
`remoteItem.parentReference.driveId`) pins the remote drive and item,
otherwise the folder itself is adopted. -/
def resolveBaseFolderIfNeeded (st : OneDriveService) (data : ItemData) : OneDriveService :=
  if st.rootItemId ≠ "" then st
  else if data.remoteItemId ≠ "" ∧ data.remoteItemParentDriveId ≠ "" then
    { st with driveId := data.remoteItemParentDriveId, rootItemId := data.remoteItemId }
  else
    { st with
      driveId := if st.driveId ≠ "" then st.driveId else data.parentDriveId
      rootItemId := data.id }

/-! ## Token cache (onedrive.js lines 37-54) -/

/-- `getAccessToken` (onedrive.js lines 37-54).  `now` is `Date.now()`;
`freshTok` and `expiresIn` are the identity-provider response fields
(`access_token`, `expires_in` in seconds) used when a refresh happens.
Returns the token, the new service state, and whether a network exchange
was performed.  On refresh the stored expiry is
`Date.now() + (expires_in - 300) * 1000`. -/
def getAccessToken (st : OneDriveService) (now : Int) (freshTok : String) (expiresIn : Int) :
    String × OneDriveService × Bool :=
  if st.accessToken ≠ "" ∧ st.tokenExpiry ≠ 0 ∧ now < st.tokenExpiry then
    (st.accessToken, st, false)
  else
    (freshTok,
     { st with accessToken := freshTok, tokenExpiry := now + (expiresIn - 300) * 1000 },
     true)

/-! ## Upload request construction (onedrive.js lines 157-221, pure parts) -/

/-- How the single content-upload PUT is addressed (onedrive.js lines
195-202): item-id-relative under the resolved root item, or by plain path
from the drive root. -/
inductive UploadAddress
  | itemRel (root : DriveRoot) (rootItemId : String) (relFolder : String) (finalName : String)
  | rootPath (root : DriveRoot) (folder : String) (finalName : String)
deriving DecidableEq, Repr

/-- Whether an address is the plain-path (`root:/...`) form. -/
def UploadAddress.isByPath : UploadAddress → Bool
  | .rootPath _ _ _ => true
  | _ => false

/-- The content-upload request: address plus the
`@microsoft.graph.conflictBehavior` query value, which the source fixes to
`replace` on both branches (onedrive.js lines 198 and 201). -/
structure UploadRequest where
  address : UploadAddress
  conflictBehavior : String
  finalName : String
deriving DecidableEq, Repr

/-- The sanitized multi-segment sub-path (onedrive.js lines 172-176):
split the sub-path on slashes, drop empties, sanitize each segment, rejoin. -/
def safeSubPathOf (subPath : String) : String :=
  joinSlash (((splitSlash subPath).filter (fun s => s ≠ "")).map sanitizeSegment)

/-- `finalFolder` (onedrive.js lines 177-179): the base folder plus the
sanitized sub-path when the latter is truthy. -/
def uploadFolderOf (fp subPath : String) : String :=
  if safeSubPathOf subPath ≠ "" then fp ++ "/" ++ safeSubPathOf subPath else fp

/-- The name/destination computation of `uploadFile` (onedrive.js lines
160-202): sanitize the name keeping the extension, synthesize the final
name, build `finalFolder = folderPath / safeSubPath`, strip the base
prefix for item-relative addressing, and choose the addressing mode on the
truthiness of `rootItemId`. -/
def uploadRequestOf (st : OneDriveService) (fileName subPath ts rand : String) : UploadRequest :=
  let finalName := mkFinalName fileName ts rand
  let finalFolder := uploadFolderOf st.folderPath subPath
  let relUnderBase := stripBase st.folderPath finalFolder
  if st.rootItemId ≠ "" then
    { address := .itemRel (baseDriveRoot st) st.rootItemId relUnderBase finalName
      conflictBehavior := "replace"
      finalName := finalName }
  else
    { address := .rootPath (baseDriveRoot st) finalFolder finalName
      conflictBehavior := "replace"
      finalName := finalName }

theorem uploadRequestOf_item {st : OneDriveService} (h : st.rootItemId ≠ "")
    (fileName subPath ts rand : String) :
    uploadRequestOf st fileName subPath ts rand
      = { address := .itemRel (baseDriveRoot st) st.rootItemId
            (stripBase st.folderPath (uploadFolderOf st.folderPath subPath))
            (mkFinalName fileName ts rand)
          conflictBehavior := "replace"
          finalName := mkFinalName fileName ts rand } := by
  simp [uploadRequestOf, h]

theorem uploadRequestOf_path {st : OneDriveService} (h : st.rootItemId = "")
    (fileName subPath ts rand : String) :
    uploadRequestOf st fileName subPath ts rand
      = { address := .rootPath (baseDriveRoot st) (uploadFolderOf st.folderPath subPath)
            (mkFinalName fileName ts rand)
          conflictBehavior := "replace"
          finalName := mkFinalName fileName ts rand } := by
  simp [uploadRequestOf, h]

/-! ## Remote folder store and `ensurePathExists` (onedrive.js lines 93-154)

The remote drive is modelled as a list of folder entries
`(parent item id, child name, child item id)`; `GET {root}/items/{id}:/{name}`
is a lookup by `(parent, name)`, and `POST {root}/items/{id}/children` with
`@microsoft.graph.conflictBehavior` creates a child.  The conflict-behavior
semantics of the remote service follow the interface description in the
spec (a folder create with `replace` resolves to the already-existing
folder instead of erroring or duplicating). -/

/-- One folder entry of the remote drive: child `cname` with item id `cid`
under parent item `parent`. -/
structure Entry where
  parent : String
  cname : String
  cid : String
deriving DecidableEq, Repr

/-- The remote drive state: existing folder entries plus a counter used to
mint fresh item ids. -/
structure Drive where
  entries : List Entry
  nextId : Nat
deriving DecidableEq, Repr

/-- A fresh item id minted by the remote service. -/
def freshId (k : Nat) : String := "item" ++ toString k

/-- `GET {root}/items/{parent}:/{name}` — fetch a child by name; `none`
models the 404 response (onedrive.js lines 113-116). -/
def getChildD (d : Drive) (p n : String) : Option String :=
  (d.entries.find? (fun e => e.parent == p && e.cname == n)).map (fun e => e.cid)

/-- Number of children named `n` under parent `p` — used to state the
no-duplicate-sibling properties. -/
def countKey (d : Drive) (p n : String) : Nat :=
  (d.entries.filter (fun e => e.parent == p && e.cname == n)).length

/-- Insert a fresh child folder (the effect of the create POST when the
name is absent). -/
def createChildFresh (d : Drive) (p n : String) : Drive × String :=
  ({ entries := ⟨p, n, freshId d.nextId⟩ :: d.entries, nextId := d.nextId + 1 }, freshId d.nextId)

/-- The conflict behavior carried by the create POST body. -/
inductive ConflictBehavior
  | fail
  | replace
deriving DecidableEq, Repr

/-- Modelled from the spec: the remote folder-create endpoint
`POST {root}/items/{parent}/children` with a conflict behavior.  Per the
spec of the external service, `replace` on an existing name resolves to
the existing folder; `fail` errors on an existing name; an absent name is
created fresh either way. -/
def graphCreateChild (d : Drive) (p n : String) (b : ConflictBehavior) :
    Except Unit (Drive × String) :=
  match getChildD d p n with
  | some i =>
    match b with
    | .replace => .ok (d, i)
    | .fail => .error ()
  | none => .ok (createChildFresh d p n)

/-- With the `replace` behavior the create call sent by the source on a 404
(onedrive.js lines 120-124) is exactly a fresh insert. -/
theorem graphCreateChild_of_none {d : Drive} {p n : String} (h : getChildD d p n = none)
    (b : ConflictBehavior) : graphCreateChild d p n b = .ok (createChildFresh d p n) := by
  simp [graphCreateChild, h]

/-- Result of the per-segment walk: the drive state, the current item id,
and how many folder-creation POSTs were issued. -/
structure EnsureOut where
  drive : Drive
  current : String
  creates : Nat
deriving DecidableEq, Repr

/-- The per-segment get-or-create walk of `ensurePathExists` in the
resolved-root branch (onedrive.js lines 105-131): for each segment fetch
the child by name, descend on success, and only on 404 create the folder
(with conflict behavior `replace`, which on an absent name is the fresh
insert `createChildFresh`, see `graphCreateChild_of_none`). -/
def ensureSegs (d : Drive) (cur : String) : List String → EnsureOut
  | [] => ⟨d, cur, 0⟩
  | seg :: rest =>
    match getChildD d cur seg with
    | some c => ensureSegs d c rest
    | none =>
      let dc := createChildFresh d cur seg
      let o := ensureSegs dc.1 dc.2 rest
      ⟨o.drive, o.current, o.creates + 1⟩

/-- Pure existence walk: follow the segments by lookup only; `some` of the
final item id when the whole chain exists. -/
def walkId (d : Drive) (cur : String) : List String → Option String
  | [] => some cur
  | seg :: rest =>
    match getChildD d cur seg with
    | some c => walkId d c rest
    | none => none

/-- The segment preprocessing of `ensurePathExists` (onedrive.js lines
98-108): split on `/`, drop empties, sanitize each segment, rejoin, strip
the base-folder prefix, split again dropping empties. -/
def ensureSegsOf (fp targetPath : String) : List String :=
  let safePath := joinSlash (((splitSlash targetPath).filter (fun s => s ≠ "")).map sanitizeSegment)
  (splitSlash (stripBase fp safePath)).filter (fun s => s ≠ "")

/-- `ensurePathExists` in the resolved-root branch (onedrive.js lines
93-131), acting on the modelled remote drive from the resolved root item. -/
def ensurePathItems (fp : String) (d : Drive) (rootItemId : String) (targetPath : String) :
    EnsureOut :=
  ensureSegs d rootItemId (ensureSegsOf fp targetPath)

/-- No two entries of the drive share a `(parent, name)` key: the
no-duplicate-siblings shape of the remote tree. -/
def goodKeys (d : Drive) : Prop :=
  d.entries.Pairwise (fun a b => ¬ (a.parent = b.parent ∧ a.cname = b.cname))

theorem getChildD_createChildFresh_same (d : Drive) (p n : String) :
    getChildD (createChildFresh d p n).1 p n = some (createChildFresh d p n).2 := by
  simp [getChildD, createChildFresh, List.find?]

theorem getChildD_createChildFresh_preserve {d : Drive} {p n : String} {c : String}
    (hpn : getChildD d p n = some c) {q m : String} (habs : getChildD d q m = none) :
    getChildD (createChildFresh d q m).1 p n = some c := by
  have hne : ¬ (q = p ∧ m = n) := by
    rintro ⟨rfl, rfl⟩
    rw [hpn] at habs
    exact Option.noConfusion habs
  have hhead : ((⟨q, m, freshId d.nextId⟩ : Entry).parent == p
      && (⟨q, m, freshId d.nextId⟩ : Entry).cname == n) = false := by
    by_cases hq : q = p
    · by_cases hm : m = n
      · exact absurd ⟨hq, hm⟩ hne
      · simp [hm]
    · simp [hq]
  simpa [getChildD, createChildFresh, List.find?, hhead] using hpn

/-- `ensureSegs` never disturbs an existing lookup: it only inserts keys
that were absent at insertion time. -/
theorem getChildD_ensureSegs_preserve {p n c : String} :
    ∀ (segs : List String) (d : Drive) (cur : String), getChildD d p n = some c →
      getChildD (ensureSegs d cur segs).drive p n = some c := by
  intro segs
  induction segs with
  | nil => intro d cur h; simpa [ensureSegs] using h
  | cons seg rest ih =>
    intro d cur h
    cases hc : getChildD d cur seg with
    | some ch => simpa [ensureSegs, hc] using ih d ch h
    | none =>
      have h1 : getChildD (createChildFresh d cur seg).1 p n = some c :=
        getChildD_createChildFresh_preserve h hc
      simpa [ensureSegs, hc] using ih (createChildFresh d cur seg).1 (createChildFresh d cur seg).2 h1

/-- When the whole chain already exists, the walk performs lookups only:
the drive is unchanged and zero creation requests are issued. -/
theorem ensureSegs_of_walkId_some {f : String} :
    ∀ (segs : List String) (d : Drive) (cur : String), walkId d cur segs = some f →
      ensureSegs d cur segs = ⟨d, f, 0⟩ := by
  intro segs
  induction segs with
  | nil =>
    intro d cur h
    simp only [walkId, Option.some.injEq] at h
    simp [ensureSegs, h]
  | cons seg rest ih =>
    intro d cur h
    cases hc : getChildD d cur seg with
    | some ch =>
      rw [walkId, hc] at h
      simpa [ensureSegs, hc] using ih d ch h
    | none => rw [walkId, hc] at h; exact Option.noConfusion h

/-- After a walk, the whole chain exists and leads to the returned item. -/
theorem walkId_after_ensureSegs :
    ∀ (segs : List String) (d : Drive) (cur : String),
      walkId (ensureSegs d cur segs).drive cur segs = some (ensureSegs d cur segs).current := by
  intro segs
  induction segs with
  | nil => intro d cur; simp [ensureSegs, walkId]
  | cons seg rest ih =>
    intro d cur
    cases hc : getChildD d cur seg with
    | some ch =>
      have hpres : getChildD (ensureSegs d ch rest).drive cur seg = some ch :=
        getChildD_ensureSegs_preserve rest d ch hc
      simp [ensureSegs, hc, walkId, hpres, ih d ch]
    | none =>
      have hself : getChildD (createChildFresh d cur seg).1 cur seg
          = some (createChildFresh d cur seg).2 := getChildD_createChildFresh_same d cur seg
      have hpres : getChildD
          (ensureSegs (createChildFresh d cur seg).1 (createChildFresh d cur seg).2 rest).drive
          cur seg = some (createChildFresh d cur seg).2 :=
        getChildD_ensureSegs_preserve rest _ _ hself
      simp [ensureSegs, hc, walkId, hpres,
        ih (createChildFresh d cur seg).1 (createChildFresh d cur seg).2]

/-- Calling the walk a second time on its own output performs no creation
request and leaves the drive unchanged. -/
theorem ensureSegs_idem (d : Drive) (cur : String) (segs : List String) :
    ensureSegs (ensureSegs d cur segs).drive cur segs
      = ⟨(ensureSegs d cur segs).drive, (ensureSegs d cur segs).current, 0⟩ :=
  ensureSegs_of_walkId_some segs _ cur (walkId_after_ensureSegs segs d cur)

theorem goodKeys_createChildFresh {d : Drive} {p n : String} (hg : goodKeys d)
    (habs : getChildD d p n = none) : goodKeys (createChildFresh d p n).1 := by
  have hall : ∀ e ∈ d.entries, e.parent = p → ¬ e.cname = n := by
    simpa [getChildD, List.find?_eq_none] using habs
  refine List.pairwise_cons.mpr ⟨?_, hg⟩
  intro e he hcontra
  exact hall e he hcontra.1.symm hcontra.2.symm

/-- The walk preserves the no-duplicate-siblings shape: it only creates a
folder after the remote reported the name absent. -/
theorem goodKeys_ensureSegs :
    ∀ (segs : List String) (d : Drive) (cur : String), goodKeys d →
      goodKeys (ensureSegs d cur segs).drive := by
  intro segs
  induction segs with
  | nil => intro d cur hg; simpa [ensureSegs] using hg
  | cons seg rest ih =>
    intro d cur hg
    cases hc : getChildD d cur seg with
    | some ch => simpa [ensureSegs, hc] using ih d ch hg
    | none =>
      have hg1 : goodKeys (createChildFresh d cur seg).1 := goodKeys_createChildFresh hg hc
      simpa [ensureSegs, hc] using
        ih (createChildFresh d cur seg).1 (createChildFresh d cur seg).2 hg1

/-! ## Two concurrent callers on one segment (onedrive.js lines 111-130)

Each caller runs the per-segment protocol for the same segment under the
same parent: first the GET (descend on success, go to the create step on a
404), then on the create step the POST with conflict behavior `replace`
(the behavior the source hard-codes, onedrive.js line 122).  A scheduler
word interleaves the two callers; each scheduler step performs one remote
call of one caller. -/

/-- Program counter of one caller of the per-segment protocol. -/
inductive PState
  | start
  | creating
  | done (i : String)
  | failed
deriving DecidableEq, Repr

/-- Joint state: the remote drive and the two callers. -/
structure Conc where
  d : Drive
  p1 : PState
  p2 : PState
deriving DecidableEq, Repr

/-- One remote call of one caller for segment `seg` under parent `p`. -/
def procStep (p seg : String) (d : Drive) : PState → Drive × PState
  | .start =>
    match getChildD d p seg with
    | some i => (d, .done i)
    | none => (d, .creating)
  | .creating =>
    match graphCreateChild d p seg .replace with
    | .ok (d', i) => (d', .done i)
    | .error _ => (d, .failed)
  | .done i => (d, .done i)
  | .failed => (d, .failed)

/-- Step the caller selected by the scheduler bit. -/
def concStep (p seg : String) (c : Conc) (first : Bool) : Conc :=
  if first then
    let r := procStep p seg c.d c.p1
    ⟨r.1, r.2, c.p2⟩
  else
    let r := procStep p seg c.d c.p2
    ⟨r.1, c.p1, r.2⟩

/-- Run a whole scheduler word. -/
def concRun (p seg : String) (c : Conc) : List Bool → Conc
  | [] => c
  | b :: rest => concRun p seg (concStep p seg c b) rest

/-- Caller-local soundness: never failed, and a finished caller has seen
the folder exist. -/
def procOk (d : Drive) (p seg : String) : PState → Prop
  | .failed => False
  | .done _ => (getChildD d p seg).isSome = true
  | _ => True

/-- The race invariant: at most one folder with the contended name, and
both callers sound. -/
def ConcInv (p seg : String) (c : Conc) : Prop :=
  countKey c.d p seg ≤ 1 ∧ procOk c.d p seg c.p1 ∧ procOk c.d p seg c.p2

theorem isSome_map_eq {α β : Type} (f : α → β) (o : Option α) : (o.map f).isSome = o.isSome := by
  cases o <;> rfl

theorem getChildD_isSome_of_countKey_pos {d : Drive} {p n : String}
    (h : 1 ≤ countKey d p n) : (getChildD d p n).isSome = true := by
  have hne : d.entries.filter (fun e => e.parent == p && e.cname == n) ≠ [] := by
    intro hnil
    simp [countKey, hnil] at h
  obtain ⟨e, he⟩ := List.exists_mem_of_ne_nil _ hne
  have hmem := List.mem_filter.mp he
  simp only [getChildD, isSome_map_eq]
  refine List.find?_isSome.mpr ⟨e, hmem.1, ?_⟩
  simpa using hmem.2

theorem countKey_zero_of_getChildD_none {d : Drive} {p n : String}
    (h : getChildD d p n = none) : countKey d p n = 0 := by
  have hfind : d.entries.find? (fun e => e.parent == p && e.cname == n) = none := by
    simpa [getChildD] using h
  have hall := List.find?_eq_none.mp hfind
  simp only [countKey, List.length_eq_zero]
  exact List.filter_eq_nil_iff.mpr (fun e he => by simpa using hall e he)

theorem countKey_createChildFresh_same (d : Drive) (p n : String) :
    countKey (createChildFresh d p n).1 p n = countKey d p n + 1 := by
  simp [countKey, createChildFresh, List.filter, Nat.add_comm]

theorem getChildD_isSome_createChildFresh {d : Drive} {p n q m : String}
    (h : (getChildD d p n).isSome = true) :
    (getChildD (createChildFresh d q m).1 p n).isSome = true := by
  simp only [getChildD, isSome_map_eq] at h ⊢
  obtain ⟨e, hfind⟩ := Option.isSome_iff_exists.mp h
  have hmem := List.mem_of_find?_eq_some hfind
  have hsat := List.find?_some hfind
  refine List.find?_isSome.mpr ⟨e, ?_, ?_⟩
  · exact List.mem_cons.mpr (Or.inr hmem)
  · simpa using hsat

theorem concInv_step {p seg : String} {c : Conc} (h : ConcInv p seg c) (b : Bool) :
    ConcInv p seg (concStep p seg c b) := by
  obtain ⟨hcount, h1, h2⟩ := h
  have key : ∀ ps : PState, procOk c.d p seg ps →
      countKey (procStep p seg c.d ps).1 p seg ≤ 1 ∧
      procOk (procStep p seg c.d ps).1 p seg (procStep p seg c.d ps).2 ∧
      (∀ qs : PState, procOk c.d p seg qs → procOk (procStep p seg c.d ps).1 p seg qs) := by
    intro ps hok
    cases ps with
    | start =>
      cases hg : getChildD c.d p seg with
      | some i =>
        refine ⟨by simpa [procStep, hg] using hcount, ?_, ?_⟩
        · simp [procStep, hg, procOk]
        · intro qs hq; simpa [procStep, hg] using hq
      | none =>
        refine ⟨by simpa [procStep, hg] using hcount, ?_, ?_⟩
        · simp [procStep, hg, procOk]
        · intro qs hq; simpa [procStep, hg] using hq
    | creating =>
      cases hg : getChildD c.d p seg with
      | some i =>
        have hsome : (getChildD c.d p seg).isSome = true := by simp [hg]
        refine ⟨?_, ?_, ?_⟩
        · simpa [procStep, graphCreateChild, hg] using hcount
        · simp [procStep, graphCreateChild, hg, procOk, hsome]
        · intro qs hq; simpa [procStep, graphCreateChild, hg] using hq
      | none =>
        have hzero : countKey c.d p seg = 0 := countKey_zero_of_getChildD_none hg
        refine ⟨?_, ?_, ?_⟩
        · simp [procStep, graphCreateChild, hg, countKey_createChildFresh_same, hzero]
        · have := getChildD_createChildFresh_same c.d p seg
          simp [procStep, graphCreateChild, hg, procOk, this]
        · intro qs hq
          cases qs with
          | done j =>
            simp only [procOk] at hq
            simp [procStep, graphCreateChild, hg, procOk,
              getChildD_isSome_createChildFresh hq]
          | start => simp [procStep, graphCreateChild, hg, procOk]
          | creating => simp [procStep, graphCreateChild, hg, procOk]
          | failed => exact absurd hq (by simp [procOk])
    | done i =>
      refine ⟨by simpa [procStep] using hcount, by simpa [procStep, procOk] using hok, ?_⟩
      intro qs hq; simpa [procStep] using hq
    | failed => exact absurd hok (by simp [procOk])
  cases b with
  | true =>
    obtain ⟨ha, hb, hc⟩ := key c.p1 h1
    exact ⟨ha, hb, hc c.p2 h2⟩
  | false =>
    obtain ⟨ha, hb, hc⟩ := key c.p2 h2
    exact ⟨ha, hc c.p1 h1, hb⟩

theorem concInv_run {p seg : String} :
    ∀ (sch : List Bool) (c : Conc), ConcInv p seg c → ConcInv p seg (concRun p seg c sch) := by
  intro sch
  induction sch with
  | nil => intro c h; simpa [concRun] using h
  | cons b rest ih => intro c h; exact ih _ (concInv_step h b)

/-! ## Local staging filesystem, cleanup, and the upload flows

`cleanupLocalFile` is onedrive.js lines 232-234; the flows are from
server.js (src/unnamed/part_000): `uploadToOneDriveAsync` plus the
clock-in background `.catch` (lines 248-252 and 327-329), and the
`POST /api/submit` handler tail (lines 304-313). -/

/-- The local staging filesystem: the set of staged file paths, plus the
paths on which `fs.unlinkSync` throws (e.g. a permission error). -/
structure LocalFs where
  files : List String
  unlinkFails : List String
deriving DecidableEq, Repr

/-- `fs.existsSync`. -/
def existsSync (fs : LocalFs) (p : String) : Bool := fs.files.contains p

/-- `fs.unlinkSync`: throws on a path in `unlinkFails` or on a missing
file, otherwise removes the file. -/
def unlinkSync (fs : LocalFs) (p : String) : Except String LocalFs :=
  if fs.unlinkFails.contains p then .error "EPERM"
  else if fs.files.contains p then .ok { fs with files := fs.files.filter (fun q => q ≠ p) }
  else .error "ENOENT"

/-- `cleanupLocalFile` (onedrive.js lines 232-234):
`try { if (fs.existsSync(filePath)) fs.unlinkSync(filePath); } catch {}` —
the result is the possibly-updated filesystem and the outcome surfaced to
the caller. -/
def cleanupLocalFile (fs : LocalFs) (p : String) : LocalFs × Except String Unit :=
  if existsSync fs p then
    match unlinkSync fs p with
    | .ok fs' => (fs', .ok ())
    | .error _ => (fs, .ok ())
  else (fs, .ok ())

/-- Failure modes of `uploadFile` that touch this model: the staged file
is missing (`fs.statSync`/`readFileSync` throw, onedrive.js lines
185-186), or the remote content PUT fails (line 213). -/
inductive UploadFailure
  | localMissing
  | remoteFail
deriving DecidableEq, Repr

/-- The local-filesystem footprint of `uploadFile` (onedrive.js lines
157-230): it only reads the staged file (statSync/readFileSync) and never
writes or deletes locally; `remoteOk` is whether the content PUT
succeeds.  The returned filesystem is the input filesystem in every case. -/
def uploadFileLocal (fs : LocalFs) (p : String) (remoteOk : Bool) :
    LocalFs × Except UploadFailure Unit :=
  if existsSync fs p = false then (fs, .error .localMissing)
  else if remoteOk then (fs, .ok ()) else (fs, .error .remoteFail)

/-- The `POST /api/submit` handler tail (server.js lines 304-313) as far
as it touches the staged file: await the upload; on success run
`cleanupLocalFile`; in the catch block delete the staged file if it still
exists (`fs.existsSync(req.file.path) && fs.unlinkSync(req.file.path)`,
line 311) and answer 500. -/
def submitFlowFs (fs : LocalFs) (p : String) (remoteOk : Bool) : LocalFs × Nat :=
  match uploadFileLocal fs p remoteOk with
  | (fs1, .ok _) => ((cleanupLocalFile fs1 p).1, 200)
  | (fs1, .error _) =>
    if existsSync fs1 p then
      match unlinkSync fs1 p with
      | .ok fs2 => (fs2, 500)
      | .error _ => (fs1, 500)
    else (fs1, 500)

/-- The clock-in background upload (server.js lines 248-252 and 327-329):
`uploadToOneDriveAsync` awaits `uploadFile` and only then runs
`cleanupLocalFile`; the promise `.catch` only logs, so a failed upload
leaves the filesystem as `uploadFile` left it. -/
def clockInAsyncUpload (fs : LocalFs) (p : String) (remoteOk : Bool) : LocalFs :=
  match uploadFileLocal fs p remoteOk with
  | (fs1, .ok _) => (cleanupLocalFile fs1 p).1
  | (fs1, .error _) => fs1

/-! ## The clock-in / clock-out database (database.js lines 162-253) -/

/-- A row of `time_records` (the columns the model needs). -/
structure TimeRecord where
  id : Nat
  userId : Nat
  email : String
  clockInTime : Int
  clockOutTime : Option Int
  status : String
deriving DecidableEq, Repr

/-- A row of `active_sessions`. -/
structure SessionRow where
  id : Nat
  userId : Nat
  email : String
  timeRecordId : Nat
  clockInTime : Int
deriving DecidableEq, Repr

/-- The database state: users as `(id, email)` (all rows active — the
model has no deactivation operation), time records, active sessions, and
the AUTOINCREMENT counters. -/
structure DBState where
  users : List (Nat × String)
  records : List TimeRecord
  sessions : List SessionRow
  nextU : Nat
  nextR : Nat
  nextS : Nat
deriving DecidableEq, Repr

/-- Empty database after `initializeTables` (AUTOINCREMENT starts at 1). -/
def dbInit : DBState := ⟨[], [], [], 1, 1, 1⟩

/-- `getUserByEmail` (database.js lines 149-159). -/
def getUserByEmail (st : DBState) (e : String) : Option (Nat × String) :=
  st.users.find? (fun u => u.2 == e)

/-- `getActiveSession` (database.js lines 243-253):
`SELECT * FROM active_sessions WHERE email = ?` via `db.get` (first row). -/
def getActiveSession (st : DBState) (e : String) : Option SessionRow :=
  st.sessions.find? (fun s => s.email == e)

/-- `clockIn` (database.js lines 162-202): look up (or create) the user,
reject when an active session exists, otherwise insert a time record with
status `active` and then an active session.  Returns the new state and
either the ids `(timeRecordId, sessionId)` or the rejection message. -/
def clockIn (st : DBState) (e : String) (now : Int) : DBState × Except String (Nat × Nat) :=
  let ust :=
    match getUserByEmail st e with
    | some u => (u.1, st)
    | none =>
      (st.nextU, { st with users := (st.nextU, e) :: st.users, nextU := st.nextU + 1 })
  match getActiveSession ust.2 e with
  | some _ => (ust.2, .error "User is already clocked in")
  | none =>
    let rid := ust.2.nextR
    let st2 := { ust.2 with
      records := ⟨rid, ust.1, e, now, none, "active"⟩ :: ust.2.records
      nextR := rid + 1 }
    let sid := st2.nextS
    let st3 := { st2 with
      sessions := ⟨sid, ust.1, e, rid, now⟩ :: st2.sessions
      nextS := sid + 1 }
    (st3, .ok (rid, sid))

/-- `clockOut` (database.js lines 205-240): reject when no active session
exists, otherwise complete the time record and delete the active session
row by its id. -/
def clockOut (st : DBState) (e : String) (now : Int) : DBState × Except String Nat :=
  match getActiveSession st e with
  | none => (st, .error "No active session found for this user")
  | some s =>
    let st1 := { st with
      records := st.records.map (fun r : TimeRecord =>
        if r.id = s.timeRecordId then
          { r with clockOutTime := some now, status := "completed" }
        else r) }
    let st2 := { st1 with sessions := st1.sessions.filter (fun t => t.id ≠ s.id) }
    (st2, .ok s.timeRecordId)

/-- One database transition through the public clock operations. -/
inductive DBStep : DBState → DBState → Prop
  | cin (st : DBState) (e : String) (now : Int) : DBStep st (clockIn st e now).1
  | cout (st : DBState) (e : String) (now : Int) : DBStep st (clockOut st e now).1

/-- States reachable from the fresh database through clockIn/clockOut. -/
def DBReachable (st : DBState) : Prop :=
  Relation.ReflTransGen DBStep dbInit st

/-- Number of active sessions recorded for an email. -/
def sessionCount (st : DBState) (e : String) : Nat :=
  (st.sessions.filter (fun s => s.email == e)).length

theorem sessionCount_zero_of_none {st : DBState} {e : String}
    (h : getActiveSession st e = none) : sessionCount st e = 0 := by
  have hall : ∀ x ∈ st.sessions, ¬ x.email = e := by simpa [getActiveSession] using h
  have hnil : st.sessions.filter (fun s => s.email == e) = [] := by
    refine List.filter_eq_nil_iff.mpr ?_
    intro s hs
    simpa using hall s hs
  simp [sessionCount, hnil]

theorem sessionCount_clockIn_le {st : DBState} {e f : String} {now : Int}
    (h : ∀ g, sessionCount st g ≤ 1) : sessionCount (clockIn st e now).1 f ≤ 1 := by
  unfold clockIn
  cases hu : getUserByEmail st e with
  | some u =>
    cases hs : getActiveSession st e with
    | some s => simpa [hu, hs, sessionCount] using h f
    | none =>
      by_cases hef : e = f
      · subst hef
        have h0 : sessionCount st e = 0 := sessionCount_zero_of_none hs
        simp only [sessionCount] at h0 ⊢
        simp [hu, hs, List.filter, h0]
      · have : (e == f) = false := by simpa using hef
        simp only [sessionCount] at h ⊢
        simpa [hu, hs, List.filter, this] using h f
  | none =>
    have hs' : getActiveSession
        { st with users := (st.nextU, e) :: st.users, nextU := st.nextU + 1 } e
        = getActiveSession st e := rfl
    cases hs : getActiveSession st e with
    | some s => simpa [hu, hs', hs, sessionCount] using h f
    | none =>
      by_cases hef : e = f
      · subst hef
        have h0 : sessionCount st e = 0 := sessionCount_zero_of_none hs
        simp only [sessionCount] at h0 ⊢
        simp [hu, hs', hs, List.filter, h0]
      · have : (e == f) = false := by simpa using hef
        simp only [sessionCount] at h ⊢
        simpa [hu, hs', hs, List.filter, this] using h f

theorem sessionCount_clockOut_le {st : DBState} {e f : String} {now : Int}
    (h : ∀ g, sessionCount st g ≤ 1) : sessionCount (clockOut st e now).1 f ≤ 1 := by
  unfold clockOut
  cases hs : getActiveSession st e with
  | none => simpa [hs, sessionCount] using h f
  | some s =>
    simp only [hs, sessionCount]
    have hsub : List.Sublist (st.sessions.filter (fun t => t.id ≠ s.id)) st.sessions :=
      List.filter_sublist _
    exact le_trans (List.Sublist.length_le (hsub.filter (fun t => t.email == f))) (h f)

/-- Every reachable database state has at most one active session per
email. -/
theorem dbInvariant {st : DBState} (h : DBReachable st) (e : String) :
    sessionCount st e ≤ 1 := by
  have main : ∀ g, sessionCount st g ≤ 1 := by
    induction h with
    | refl => intro g; simp [dbInit, sessionCount]
    | tail _ hstep ih =>
      cases hstep with
      | cin e' now' => intro g; exact sessionCount_clockIn_le ih
      | cout e' now' => intro g; exact sessionCount_clockOut_le ih
  exact main e

/-! ## Remaining auxiliary lemmas -/

theorem countKey_pos_of_isSome {d : Drive} {p n : String}
    (h : (getChildD d p n).isSome = true) : 1 ≤ countKey d p n := by
  simp only [getChildD, isSome_map_eq] at h
  obtain ⟨e, hfind⟩ := Option.isSome_iff_exists.mp h
  have hmem := List.mem_of_find?_eq_some hfind
  have hsat := List.find?_some hfind
  have hin : e ∈ d.entries.filter (fun e => e.parent == p && e.cname == n) :=
    List.mem_filter.mpr ⟨hmem, hsat⟩
  exact List.length_pos_of_mem hin

theorem mem_of_mem_jsTrim {c : Char} {l : List Char} (h : c ∈ jsTrim l) : c ∈ l := by
  unfold jsTrim at h
  have h1 : c ∈ (l.dropWhile jsWs).reverse.dropWhile jsWs := List.mem_reverse.mp h
  have h2 : c ∈ (l.dropWhile jsWs).reverse := (List.dropWhile_sublist _).mem h1
  have h3 : c ∈ l.dropWhile jsWs := List.mem_reverse.mp h2
  exact (List.dropWhile_sublist _).mem h3

theorem sanitizeFileName_no_illegal (name : String) :
    ∀ c ∈ (sanitizeFileName name).data, isIllegalChar c = false := by
  intro c hc
  have h1 : c ∈ removeIllegal (if name = "" then "upload.bin" else name).data :=
    mem_of_mem_jsTrim hc
  have h2 := List.mem_filter.mp h1
  simpa using h2.2

/-! ## The claims -/

/-- C1: when the remote reports the configured base folder as a shortcut
(a `remoteItem` with an id and a parent drive id), `resolveBaseFolderIfNeeded`
adopts the target drive id and target item id as the resolved root, so every
subsequent upload is addressed under that target drive beneath that item and
never under the original path in the original drive; for an ordinary folder
it adopts the drive and item id of the folder itself. -/
theorem claim_C1_shortcut_resolution :
    ∀ (st : OneDriveService) (data : ItemData) (fileName subPath ts rand : String),
      st.rootItemId = "" →
      ((data.remoteItemId ≠ "" ∧ data.remoteItemParentDriveId ≠ "") →
        (resolveBaseFolderIfNeeded st data).driveId = data.remoteItemParentDriveId
        ∧ (resolveBaseFolderIfNeeded st data).rootItemId = data.remoteItemId
        ∧ baseDriveRoot (resolveBaseFolderIfNeeded st data)
            = .drive data.remoteItemParentDriveId
        ∧ (∃ rel,
            (uploadRequestOf (resolveBaseFolderIfNeeded st data) fileName subPath ts rand).address
              = .itemRel (.drive data.remoteItemParentDriveId) data.remoteItemId rel
                  (mkFinalName fileName ts rand)))
      ∧ (¬ (data.remoteItemId ≠ "" ∧ data.remoteItemParentDriveId ≠ "") → st.driveId = "" →
          (resolveBaseFolderIfNeeded st data).driveId = data.parentDriveId
          ∧ (resolveBaseFolderIfNeeded st data).rootItemId = data.id) := by
  intro st data fileName subPath ts rand h0
  constructor
  · rintro ⟨h1, h2⟩
    have hres : resolveBaseFolderIfNeeded st data
        = { st with driveId := data.remoteItemParentDriveId, rootItemId := data.remoteItemId } := by
      simp [resolveBaseFolderIfNeeded, h0, h1, h2]
    have hroot : baseDriveRoot (resolveBaseFolderIfNeeded st data)
        = .drive data.remoteItemParentDriveId := by
      simp [hres, baseDriveRoot, h2]
    refine ⟨by simp [hres], by simp [hres], hroot, ?_⟩
    have hitem : (resolveBaseFolderIfNeeded st data).rootItemId ≠ "" := by simp [hres, h1]
    refine ⟨stripBase (resolveBaseFolderIfNeeded st data).folderPath
      (uploadFolderOf (resolveBaseFolderIfNeeded st data).folderPath subPath), ?_⟩
    rw [uploadRequestOf_item hitem, hroot]
    simp [hres]
  · intro hno hdrv
    have hres : resolveBaseFolderIfNeeded st data
        = { st with driveId := data.parentDriveId, rootItemId := data.id } := by
      simp [resolveBaseFolderIfNeeded, h0, hno, hdrv]
    exact ⟨by simp [hres], by simp [hres]⟩

theorem claim_C1_witness :
    (resolveBaseFolderIfNeeded ⟨"TimeClock_Photos", "svc@contoso.com", "", "", "", 0⟩
        ⟨"S1", "D0", "R1", "D9"⟩).driveId = "D9"
    ∧ (resolveBaseFolderIfNeeded ⟨"TimeClock_Photos", "svc@contoso.com", "", "", "", 0⟩
        ⟨"S1", "D0", "R1", "D9"⟩).rootItemId = "R1" := by
  have h := (claim_C1_shortcut_resolution ⟨"TimeClock_Photos", "svc@contoso.com", "", "", "", 0⟩
    ⟨"S1", "D0", "R1", "D9"⟩ "a.jpg" "sub" "2024-05-01T10:00:00.000Z" "abc123" rfl).1
    ⟨by decide, by decide⟩
  exact ⟨h.1, h.2.1⟩

/-- C2: when the folder chain of the requested path already exists,
`ensurePathExists` (modelled by `ensurePathItems` over the remote drive)
performs lookups only and issues zero folder-creation requests, leaving the
drive unchanged; in particular a second call on the drive produced by a
first call creates nothing, and the no-duplicate-siblings shape of the
drive is preserved. -/
theorem claim_C2_idempotent_ensure :
    ∀ (fp : String) (d : Drive) (rootId : String) (targetPath : String),
      (∀ f, walkId d rootId (ensureSegsOf fp targetPath) = some f →
        ensurePathItems fp d rootId targetPath = ⟨d, f, 0⟩)
      ∧ ensurePathItems fp (ensurePathItems fp d rootId targetPath).drive rootId targetPath
          = ⟨(ensurePathItems fp d rootId targetPath).drive,
             (ensurePathItems fp d rootId targetPath).current, 0⟩
      ∧ (goodKeys d → goodKeys (ensurePathItems fp d rootId targetPath).drive) := by
  intro fp d rootId targetPath
  refine ⟨?_, ?_, ?_⟩
  · intro f h
    exact ensureSegs_of_walkId_some _ _ _ h
  · exact ensureSegs_idem d rootId _
  · exact goodKeys_ensureSegs _ d rootId

theorem claim_C2_witness :
    walkId ⟨[⟨"root", "Companies", "c1"⟩, ⟨"c1", "Acme", "c2"⟩], 0⟩ "root"
        (ensureSegsOf "TimeClock_Photos" "TimeClock_Photos/Companies/Acme") = some "c2"
    ∧ ensurePathItems "TimeClock_Photos" ⟨[⟨"root", "Companies", "c1"⟩, ⟨"c1", "Acme", "c2"⟩], 0⟩
        "root" "TimeClock_Photos/Companies/Acme"
      = ⟨⟨[⟨"root", "Companies", "c1"⟩, ⟨"c1", "Acme", "c2"⟩], 0⟩, "c2", 0⟩ :=
  ⟨by decide,
   (claim_C2_idempotent_ensure "TimeClock_Photos"
     ⟨[⟨"root", "Companies", "c1"⟩, ⟨"c1", "Acme", "c2"⟩], 0⟩ "root"
     "TimeClock_Photos/Companies/Acme").1 "c2" (by decide)⟩

/-- C3: for a segment that does not yet exist, under every interleaving of
two concurrent per-segment get-or-create callers (GET, then create with
conflict behavior `replace` only on 404) neither caller fails, at most one
folder with that name ever exists, and once both callers have finished
there is exactly one such folder. -/
theorem claim_C3_race_tolerance :
    ∀ (d : Drive) (p seg : String) (sch : List Bool),
      getChildD d p seg = none →
      (concRun p seg ⟨d, .start, .start⟩ sch).p1 ≠ .failed
      ∧ (concRun p seg ⟨d, .start, .start⟩ sch).p2 ≠ .failed
      ∧ countKey (concRun p seg ⟨d, .start, .start⟩ sch).d p seg ≤ 1
      ∧ ((∃ i, (concRun p seg ⟨d, .start, .start⟩ sch).p1 = .done i)
          → (∃ j, (concRun p seg ⟨d, .start, .start⟩ sch).p2 = .done j)
          → countKey (concRun p seg ⟨d, .start, .start⟩ sch).d p seg = 1) := by
  intro d p seg sch h
  have hinit : ConcInv p seg ⟨d, .start, .start⟩ := by
    refine ⟨?_, trivial, trivial⟩
    have h0 : countKey d p seg = 0 := countKey_zero_of_getChildD_none h
    simp [h0]
  obtain ⟨hcount, h1, h2⟩ := concInv_run sch _ hinit
  refine ⟨?_, ?_, hcount, ?_⟩
  · intro hbad
    rw [hbad] at h1
    exact h1
  · intro hbad
    rw [hbad] at h2
    exact h2
  · rintro ⟨i, hi⟩ -
    rw [hi] at h1
    have := countKey_pos_of_isSome h1
    omega

theorem claim_C3_witness :
    getChildD ⟨[], 0⟩ "root" "X" = none
    ∧ countKey (concRun "root" "X" ⟨⟨[], 0⟩, .start, .start⟩ [true, true, false, false]).d
        "root" "X" = 1 :=
  ⟨by decide,
   (claim_C3_race_tolerance ⟨[], 0⟩ "root" "X" [true, true, false, false] (by decide)).2.2.2
     ⟨"item0", by decide⟩ ⟨"item0", by decide⟩⟩

/-- C4 counterexample: the synthesized final name is a function of the
logical name, the millisecond timestamp and the random suffix alone; two
same-second calls that draw the same timestamp string and the same random
suffix (a possible, if improbable, draw of `Math.random`) return the same
final name, so the claimed unconditional distinctness fails. -/
theorem claim_C4_counterexample :
    mkFinalName "photo.jpg" "2024-05-01T10:00:00.000Z" "k2r9ab"
      = "photo_2024-05-01T10-00-00-000Z_k2r9ab.jpg"
    ∧ ¬ (mkFinalName "photo.jpg" "2024-05-01T10:00:00.000Z" "k2r9ab"
        ≠ mkFinalName "photo.jpg" "2024-05-01T10:00:00.000Z" "k2r9ab") := by
  constructor
  · decide
  · intro h
    exact h rfl

/-- C4 amended: two uploads of the same logical name whose random suffixes
differ (or whose millisecond timestamps differ, by the same argument)
produce different final names; the final name always ends with the
preserved extension of the sanitized logical name, and the sanitized name
contains no character illegal in the remote namespace. -/
theorem claim_C4_unique_names :
    (∀ name ts r1 r2 : String, r1 ≠ r2 →
      mkFinalName name ts r1 ≠ mkFinalName name ts r2)
    ∧ (∀ name ts r : String, ∃ pre : List Char,
        (mkFinalName name ts r).data = pre ++ (extname (sanitizeFileName name)).data)
    ∧ (∀ name : String, ∀ c ∈ (sanitizeFileName name).data, isIllegalChar c = false) := by
  refine ⟨?_, ?_, ?_⟩
  · intro name ts r1 r2 hne heq
    apply hne
    rw [mkFinalName_eq name ts r1, mkFinalName_eq name ts r2] at heq
    have hd := congrArg String.data heq
    simp only [string_data_append, List.append_assoc] at hd
    have h1 := List.append_cancel_left hd
    have h2 := List.append_cancel_left h1
    have h3 := List.append_cancel_left h2
    have h4 := List.append_cancel_left h3
    have h5 := List.append_cancel_right h4
    exact string_eq_of_data h5
  · intro name ts r
    refine ⟨(baseOf (sanitizeFileName name) ++ "_" ++ replaceTsChars ts ++ "_" ++ r).data, ?_⟩
    rw [mkFinalName_eq]
    exact string_data_append _ _
  · exact sanitizeFileName_no_illegal

theorem claim_C4_witness :
    ("aaa111" : String) ≠ "bbb222"
    ∧ mkFinalName "photo.jpg" "2024-05-01T10:00:00.000Z" "aaa111"
        ≠ mkFinalName "photo.jpg" "2024-05-01T10:00:00.000Z" "bbb222" :=
  ⟨by decide,
   claim_C4_unique_names.1 "photo.jpg" "2024-05-01T10:00:00.000Z" "aaa111" "bbb222" (by decide)⟩

/-- C5: `getAccessToken` returns the cached token with no network exchange
whenever a cached token exists and `now` is before the stored expiry; two
sequential calls with the second inside the stored expiry issue at most
one exchange; a refresh stores the expiry as the issued expiry minus the
300-second safety margin. -/
theorem claim_C5_token_cache :
    (∀ (st : OneDriveService) (now : Int) (tok : String) (expIn : Int),
      st.accessToken ≠ "" → st.tokenExpiry ≠ 0 → now < st.tokenExpiry →
      getAccessToken st now tok expIn = (st.accessToken, st, false))
    ∧ (∀ (st : OneDriveService) (n1 n2 : Int) (t1 t2 : String) (e1 e2 : Int),
      t1 ≠ "" → 0 ≤ n2 →
      n2 < (getAccessToken st n1 t1 e1).2.1.tokenExpiry →
      (getAccessToken (getAccessToken st n1 t1 e1).2.1 n2 t2 e2).2.2 = false
      ∧ Bool.toNat (getAccessToken st n1 t1 e1).2.2
          + Bool.toNat (getAccessToken (getAccessToken st n1 t1 e1).2.1 n2 t2 e2).2.2 ≤ 1)
    ∧ (∀ (st : OneDriveService) (now : Int) (tok : String) (expIn : Int),
      ¬ (st.accessToken ≠ "" ∧ st.tokenExpiry ≠ 0 ∧ now < st.tokenExpiry) →
      (getAccessToken st now tok expIn).2.1.tokenExpiry = (now + expIn * 1000) - 300 * 1000) := by
  refine ⟨?_, ?_, ?_⟩
  · intro st now tok expIn h1 h2 h3
    simp [getAccessToken, h1, h2, h3]
  · intro st n1 n2 t1 t2 e1 e2 ht1 hn2 hlt
    by_cases hc : st.accessToken ≠ "" ∧ st.tokenExpiry ≠ 0 ∧ n1 < st.tokenExpiry
    · have hfirst : getAccessToken st n1 t1 e1 = (st.accessToken, st, false) := by
        simp [getAccessToken, hc]
      rw [hfirst] at hlt ⊢
      have hsecond : getAccessToken st n2 t2 e2 = (st.accessToken, st, false) := by
        simp [getAccessToken, hc.1, hc.2.1, hlt]
      simp [hsecond]
    · have hfirst : getAccessToken st n1 t1 e1
          = (t1, { st with accessToken := t1, tokenExpiry := n1 + (e1 - 300) * 1000 }, true) := by
        simp only [getAccessToken]
        rw [if_neg hc]
      rw [hfirst] at hlt ⊢
      have hex : (n1 + (e1 - 300) * 1000 : Int) ≠ 0 := by
        intro hz
        simp only [hz] at hlt
        omega
      have hsecond : getAccessToken
          { st with accessToken := t1, tokenExpiry := n1 + (e1 - 300) * 1000 } n2 t2 e2
          = (t1, { st with accessToken := t1, tokenExpiry := n1 + (e1 - 300) * 1000 }, false) := by
        simp [getAccessToken, ht1, hex, hlt]
      simp [hsecond]
  · intro st now tok expIn hc
    have : getAccessToken st now tok expIn
        = (tok, { st with accessToken := tok, tokenExpiry := now + (expIn - 300) * 1000 }, true) := by
      simp only [getAccessToken]
      rw [if_neg hc]
    rw [this]
    ring

theorem claim_C5_witness :
    getAccessToken ⟨"TimeClock_Photos", "u@x", "", "", "tok0", 5000⟩ 100 "t1" 3600
      = ("tok0", ⟨"TimeClock_Photos", "u@x", "", "", "tok0", 5000⟩, false)
    ∧ (getAccessToken
        (getAccessToken ⟨"TimeClock_Photos", "u@x", "", "", "", 0⟩ 0 "t1" 3600).2.1
        1000 "t2" 3600).2.2 = false
    ∧ (getAccessToken ⟨"TimeClock_Photos", "u@x", "", "", "", 0⟩ 0 "t1" 3600).2.1.tokenExpiry
      = (0 + 3600 * 1000) - 300 * 1000 :=
  ⟨claim_C5_token_cache.1 _ 100 "t1" 3600 (by decide) (by decide) (by decide),
   ((claim_C5_token_cache.2.1 ⟨"TimeClock_Photos", "u@x", "", "", "", 0⟩ 0 1000 "t1" "t2" 3600 3600
      (by decide) (by decide) (by decide)).1),
   claim_C5_token_cache.2.2 ⟨"TimeClock_Photos", "u@x", "", "", "", 0⟩ 0 "t1" 3600 (by decide)⟩

/-- C6 counterexample: after resolving an ordinary (non-shortcut) base
folder, `rootItemId` is set to the item id of the folder itself (onedrive.js line
74), so the upload is addressed item-id-relatively as well — not by plain
path from the drive root as the claim states for the non-shortcut case. -/
theorem claim_C6_counterexample :
    (uploadRequestOf
        (resolveBaseFolderIfNeeded ⟨"TimeClock_Photos", "user@contoso.com", "", "", "", 0⟩
          ⟨"F1", "D1", "", ""⟩)
        "a.jpg" "teamX" "2024-05-01T10:00:00.000Z" "abc123").address
      = .itemRel (.drive "D1") "F1" "teamX" "a_2024-05-01T10-00-00-000Z_abc123.jpg"
    ∧ ((uploadRequestOf
        (resolveBaseFolderIfNeeded ⟨"TimeClock_Photos", "user@contoso.com", "", "", "", 0⟩
          ⟨"F1", "D1", "", ""⟩)
        "a.jpg" "teamX" "2024-05-01T10:00:00.000Z" "abc123").address.isByPath = false) := by
  constructor
  · decide
  · decide

/-- C6 amended: after any successful base-folder resolution (the item
response carries a non-empty id) the single content-upload request is
addressed by item-id-relative path under the resolved root — for both
shortcut and ordinary base folders — and the plain-path form occurs
exactly when `rootItemId` is still unset; in every case the request
carries conflict behavior `replace`. -/
theorem claim_C6_upload_addressing :
    ∀ (st : OneDriveService) (data : ItemData) (fileName subPath ts rand : String),
      st.rootItemId = "" → data.id ≠ "" →
      ((resolveBaseFolderIfNeeded st data).rootItemId ≠ ""
        ∧ (∃ rel,
            (uploadRequestOf (resolveBaseFolderIfNeeded st data) fileName subPath ts rand).address
              = .itemRel (baseDriveRoot (resolveBaseFolderIfNeeded st data))
                  (resolveBaseFolderIfNeeded st data).rootItemId rel
                  (mkFinalName fileName ts rand))
        ∧ (uploadRequestOf (resolveBaseFolderIfNeeded st data)
            fileName subPath ts rand).conflictBehavior = "replace")
      ∧ (∀ st0 : OneDriveService,
          ((uploadRequestOf st0 fileName subPath ts rand).address.isByPath = true
            ↔ st0.rootItemId = "")
          ∧ (uploadRequestOf st0 fileName subPath ts rand).conflictBehavior = "replace") := by
  intro st data fileName subPath ts rand h0 hid
  have hset : (resolveBaseFolderIfNeeded st data).rootItemId ≠ "" := by
    unfold resolveBaseFolderIfNeeded
    rw [if_neg (by simp [h0])]
    by_cases hsc : data.remoteItemId ≠ "" ∧ data.remoteItemParentDriveId ≠ ""
    · rw [if_pos hsc]
      exact hsc.1
    · rw [if_neg hsc]
      exact hid
  refine ⟨⟨hset, ?_, ?_⟩, ?_⟩
  · exact ⟨_, by rw [uploadRequestOf_item hset]⟩
  · rw [uploadRequestOf_item hset]
  · intro st0
    constructor
    · by_cases hr : st0.rootItemId ≠ ""
      · rw [uploadRequestOf_item hr]
        simp [UploadAddress.isByPath, hr]
      · have hr' : st0.rootItemId = "" := by simpa using hr
        rw [uploadRequestOf_path hr']
        simp [UploadAddress.isByPath, hr']
    · by_cases hr : st0.rootItemId ≠ ""
      · rw [uploadRequestOf_item hr]
      · have hr' : st0.rootItemId = "" := by simpa using hr
        rw [uploadRequestOf_path hr']

theorem claim_C6_witness :
    (resolveBaseFolderIfNeeded ⟨"Worker_Documents", "u@x", "", "", "", 0⟩
        ⟨"F7", "D7", "", ""⟩).rootItemId ≠ ""
    ∧ (uploadRequestOf (resolveBaseFolderIfNeeded ⟨"Worker_Documents", "u@x", "", "", "", 0⟩
        ⟨"F7", "D7", "", ""⟩) "w9.pdf" "New_Hires" "T" "R").conflictBehavior = "replace" := by
  have h := (claim_C6_upload_addressing ⟨"Worker_Documents", "u@x", "", "", "", 0⟩
    ⟨"F7", "D7", "", ""⟩ "w9.pdf" "New_Hires" "T" "R" rfl (by decide)).1
  exact ⟨h.1, h.2.2⟩

/-- C7 counterexample: in the synchronous `POST /api/submit` flow a failed
remote upload reaches the catch block, which deletes the staged file
(server.js line 311) — the staged file is not left present. -/
theorem claim_C7_counterexample :
    existsSync ⟨["uploads/photo-1.jpg"], []⟩ "uploads/photo-1.jpg" = true
    ∧ (submitFlowFs ⟨["uploads/photo-1.jpg"], []⟩ "uploads/photo-1.jpg" false).2 = 500
    ∧ existsSync (submitFlowFs ⟨["uploads/photo-1.jpg"], []⟩ "uploads/photo-1.jpg" false).1
        "uploads/photo-1.jpg" = false := by
  refine ⟨by decide, by decide, by decide⟩

/-- C7 amended: `uploadFile` itself never deletes or modifies the staged
file (its local filesystem footprint is read-only), and the asynchronous
clock-in background flow retains the staged file on a failed upload (its
`.catch` only logs); but the catch block of the synchronous submit flow deletes
the staged file on failure (see the counterexample). -/
theorem claim_C7_staging_retention :
    ∀ (fs : LocalFs) (p : String) (remoteOk : Bool),
      (uploadFileLocal fs p remoteOk).1 = fs
      ∧ clockInAsyncUpload fs p false = fs := by
  intro fs p remoteOk
  constructor
  · simp only [uploadFileLocal]
    split
    · rfl
    · split <;> rfl
  · by_cases hex : existsSync fs p = false
    · simp [clockInAsyncUpload, uploadFileLocal, hex]
    · simp [clockInAsyncUpload, uploadFileLocal, hex]

/-- C8 counterexample: a logical name that sanitizes to empty (here `":::"`)
is not rejected; `uploadFile` proceeds and builds a final name with an
empty base (`_{ts}_{rand}`) and issues the upload request — no
`InvalidNameError` exists in the code. -/
theorem claim_C8_counterexample :
    sanitizeFileName ":::" = ""
    ∧ uploadRequestOf ⟨"TimeClock_Photos", "u@x", "D1", "F1", "", 0⟩ ":::" ""
        "2024-05-01T10:00:00.000Z" "abc123"
      = { address := .itemRel (.drive "D1") "F1" "" "_2024-05-01T10-00-00-000Z_abc123"
          conflictBehavior := "replace"
          finalName := "_2024-05-01T10-00-00-000Z_abc123" } := by
  refine ⟨by decide, by decide⟩

/-- C8 amended: `uploadFile` performs no emptiness check after sanitizing:
every non-empty logical name that sanitizes to empty proceeds with the
empty base name, yielding the final name `_{ts}_{rand}`; only a falsy
(empty) logical name gets the `upload.bin` fallback. -/
theorem claim_C8_empty_name :
    (∀ fileName ts rand : String, fileName ≠ "" → sanitizeFileName fileName = "" →
      mkFinalName fileName ts rand = "_" ++ replaceTsChars ts ++ "_" ++ rand)
    ∧ (∀ ts rand : String,
        mkFinalName "" ts rand = "upload" ++ "_" ++ replaceTsChars ts ++ "_" ++ rand ++ ".bin") := by
  constructor
  · intro fileName ts rand hne hsan
    rw [mkFinalName_eq, hsan]
    have hb : baseOf "" = "" := by decide
    have he : extname "" = "" := by decide
    rw [hb, he]
    apply string_eq_of_data
    simp [string_data_append, string_data_empty]
  · intro ts rand
    rw [mkFinalName_eq]
    have hs : sanitizeFileName "" = "upload.bin" := by decide
    have hb : baseOf "upload.bin" = "upload" := by decide
    have he : extname "upload.bin" = ".bin" := by decide
    rw [hs, hb, he]

theorem claim_C8_witness :
    (":::" : String) ≠ ""
    ∧ sanitizeFileName ":::" = ""
    ∧ mkFinalName ":::" "2024-05-01T10:00:00.000Z" "abc123"
        = "_" ++ replaceTsChars "2024-05-01T10:00:00.000Z" ++ "_" ++ "abc123" :=
  ⟨by decide, by decide,
   claim_C8_empty_name.1 ":::" "2024-05-01T10:00:00.000Z" "abc123" (by decide) (by decide)⟩

/-- C9: `cleanupLocalFile` never throws: for every filesystem state and
path — including a missing file and a path whose unlink throws — the
outcome surfaced to the caller is success. -/
theorem claim_C9_cleanup_never_throws :
    ∀ (fs : LocalFs) (p : String), (cleanupLocalFile fs p).2 = Except.ok () := by
  intro fs p
  simp only [cleanupLocalFile]
  split
  · cases h : unlinkSync fs p <;> simp [h]
  · rfl

/-- C10: `clockIn` rejects with `User is already clocked in` whenever an
active session exists for the email, inserting no time record and no
session; and every database state reachable from the fresh database
through clockIn/clockOut has at most one active session per email. -/
theorem claim_C10_single_session :
    ∀ (st : DBState) (e : String) (now : Int),
      (∀ s, getActiveSession st e = some s →
        (clockIn st e now).2 = .error "User is already clocked in"
        ∧ ((clockIn st e now).1).records = st.records
        ∧ ((clockIn st e now).1).sessions = st.sessions)
      ∧ (DBReachable st → ∀ f, sessionCount st f ≤ 1) := by
  intro st e now
  constructor
  · intro s hs
    unfold clockIn
    cases hu : getUserByEmail st e with
    | some u => simp [hu, hs]
    | none =>
      have hs2 : getActiveSession
          { st with users := (st.nextU, e) :: st.users, nextU := st.nextU + 1 } e = some s := hs
      simp [hu, hs2]
  · intro hr f
    exact dbInvariant hr f

theorem claim_C10_witness :
    sessionCount (clockIn dbInit "a@b.c" 0).1 "a@b.c" ≤ 1
    ∧ (clockIn (clockIn dbInit "a@b.c" 0).1 "a@b.c" 7).2
        = .error "User is already clocked in" := by
  refine ⟨(claim_C10_single_session (clockIn dbInit "a@b.c" 0).1 "x" 0).2 ?_ "a@b.c", ?_⟩
  · exact Relation.ReflTransGen.single (DBStep.cin dbInit "a@b.c" 0)
  · exact ((claim_C10_single_session (clockIn dbInit "a@b.c" 0).1 "a@b.c" 7).1
      ⟨1, 1, "a@b.c", 1, 0⟩ (by decide)).1

end CQS
